import Mathlib

/-!
Verification of the agnetouto/agentouto multi-agent orchestration runtime.

This file gives a shallow embedding, in Lean 4, of the core data model and
algorithms of the repository (the `agnetouto` and `agentouto` packages are two
spellings of the same project inside the repo; where both contain a module the
two versions share the control flow and we note which file each definition
embeds).  Pure functions of the source become Lean functions; the stateful
agent loops become explicit state-passing interpreters over a script of
adapter responses (the LLM adapter and the tool callables are the external
inputs of the loop, so they are parameters of the model); fallible code
returns `Except` values.  Machine-level concerns (network, uuid minting,
wall-clock timestamps) are outside the model and are noted where omitted.
-/

namespace Agentouto

/-- ToolCall from `src/agnetouto/context.py`: id, name and an arguments map.
The source type of `arguments` is `dict[str, Any]`; every access the runtime
performs reads string-valued entries (`message`, `agent_name`), so the map is
embedded as an association list with string values. -/
structure ToolCall where
  id : String
  name : String
  arguments : List (String × String)
deriving Repr, DecidableEq

/-- Lookup in an arguments map with default empty string: embeds the Python
idiom `tc.arguments.get(key, "")` used throughout `runtime.py`. -/
def argGet (args : List (String × String)) (k : String) : String :=
  ((args.find? (fun p => p.1 = k)).map Prod.snd).getD ""

/-- Lookup in an arguments map without a default: `arguments.get("message", "")`
is `argGet`, and `argGetOpt` exposes presence/absence for stating defaults. -/
def argGetOpt (args : List (String × String)) (k : String) : Option String :=
  (args.find? (fun p => p.1 = k)).map Prod.snd

/-- ContextMessage from `src/agnetouto/context.py`: a role-tagged record with
optional content, tool calls, tool_call_id and tool_name (defaults `None`). -/
structure ContextMessage where
  role : String
  content : Option String := none
  tool_calls : Option (List ToolCall) := none
  tool_call_id : Option String := none
  tool_name : Option String := none
deriving Repr, DecidableEq

/-- Context from `src/agnetouto/context.py`: a system prompt plus an ordered,
append-only list of messages. -/
structure Context where
  system_prompt : String
  messages : List ContextMessage := []
deriving Repr, DecidableEq

/-- Context.add_user from `src/agnetouto/context.py`. -/
def Context.add_user (c : Context) (content : String) : Context :=
  { c with messages := c.messages ++ [{ role := "user", content := some content }] }

/-- Context.add_assistant_text from `src/agnetouto/context.py`. -/
def Context.add_assistant_text (c : Context) (content : String) : Context :=
  { c with messages := c.messages ++ [{ role := "assistant", content := some content }] }

/-- Context.add_assistant_tool_calls from `src/agnetouto/context.py`. -/
def Context.add_assistant_tool_calls (c : Context) (tool_calls : List ToolCall)
    (content : Option String := none) : Context :=
  { c with messages := c.messages ++
      [{ role := "assistant", content := content, tool_calls := some tool_calls }] }

/-- Context.add_tool_result from `src/agnetouto/context.py`. -/
def Context.add_tool_result (c : Context) (tool_call_id tool_name content : String) :
    Context :=
  { c with messages := c.messages ++
      [{ role := "tool", content := some content, tool_call_id := some tool_call_id,
         tool_name := some tool_name }] }

/-- LLMResponse from `src/agentouto/providers/__init__.py` (and identically
`src/agnetouto/providers/__init__.py`): optional content plus a tool-call list
(`tool_calls or []` in the constructor collapses `None` to the empty list, so
the field is embedded as a plain list). -/
structure LLMResponse where
  content : Option String := none
  tool_calls : List ToolCall := []
deriving Repr, DecidableEq

/-- One element of a provider stream: a text chunk or the final response
(`AsyncIterator[str | LLMResponse]` in the source). -/
inductive StreamChunk where
  | text (s : String)
  | response (r : LLMResponse)
deriving Repr, DecidableEq

/-- ProviderBackend.stream default implementation from
`src/agentouto/providers/__init__.py` lines 61-72: given the response that
`call` produced, yield the content as one chunk when it is truthy (non-None
and non-empty), then yield the response itself. -/
def streamDefault (response : LLMResponse) : List StreamChunk :=
  (match response.content with
    | some s => if s ≠ "" then [StreamChunk.text s] else []
    | none => []) ++ [StreamChunk.response response]

/-- Text chunks of a stream, in order. -/
def streamTexts (chunks : List StreamChunk) : List String :=
  chunks.filterMap (fun c => match c with | .text s => some s | .response _ => none)

/-- Final responses of a stream, in order. -/
def streamResponses (chunks : List StreamChunk) : List LLMResponse :=
  chunks.filterMap (fun c => match c with | .text _ => none | .response r => some r)

/-! ## JSON-like values for tool schemas -/

/-- A JSON-like value, used to embed the `dict`-shaped tool schemas the Router
and `Tool.to_schema` build. -/
inductive JVal where
  | str (s : String)
  | num (n : Int)
  | bool (b : Bool)
  | arr (xs : List JVal)
  | obj (fields : List (String × JVal))

/-- Field lookup in a JSON-like object; `none` on non-objects or absent keys. -/
def JVal.get : JVal → String → Option JVal
  | .obj fields, k => ((fields.find? (fun p => p.1 = k)).map Prod.snd)
  | _, _ => none

/-! ## Tool schema derivation (src/agentouto/tool.py) -/

/-- A Python annotation as seen by `_build_parameters_schema`: the types the
`_PYTHON_TYPE_TO_JSON` table knows, or some other type. -/
inductive PyType where
  | pstr
  | pint
  | pfloat
  | pbool
  | plist
  | pdict
  | other (typeName : String)
deriving Repr, DecidableEq

/-- The `_PYTHON_TYPE_TO_JSON` table from `src/agentouto/tool.py` lines 6-13,
as a partial map. -/
def pythonTypeToJson : PyType → Option String
  | .pstr => some "string"
  | .pint => some "integer"
  | .pfloat => some "number"
  | .pbool => some "boolean"
  | .plist => some "array"
  | .pdict => some "object"
  | .other _ => none

/-- One parameter of a tool callable, as `_build_parameters_schema` observes it
through `inspect.signature` and `get_type_hints`: its name, its type hint when
one is declared (`hints.get(name, str)` supplies `str` otherwise), and whether
a default value is present (`param.default is inspect.Parameter.empty`); the
source never reads the default value itself, only its presence. -/
structure PyParam where
  name : String
  annotation : Option PyType := none
  hasDefault : Bool := false
deriving Repr, DecidableEq

/-- The `json_type` computed for one parameter in `_build_parameters_schema`:
`_PYTHON_TYPE_TO_JSON.get(hints.get(name, str), "string")`. -/
def paramJsonType (p : PyParam) : String :=
  (pythonTypeToJson (p.annotation.getD PyType.pstr)).getD "string"

/-- The `_build_parameters_schema` function from `src/agentouto/tool.py`
lines 16-36: every parameter contributes a property holding only its JSON
type; parameters without a default are listed in `required`; the `required`
key is omitted when the list is empty. -/
def buildParametersSchema (params : List PyParam) : JVal :=
  let properties := params.map (fun p => (p.name, JVal.obj [("type", JVal.str (paramJsonType p))]))
  let required := (params.filter (fun p => !p.hasDefault)).map PyParam.name
  JVal.obj
    ([("type", JVal.str "object"), ("properties", JVal.obj properties)] ++
      (if required ≠ [] then [("required", JVal.arr (required.map JVal.str))] else []))

/-- Tool from `src/agentouto/tool.py`: name and description come from the
callable, `parameters` from `_build_parameters_schema`; the callable itself is
embedded as a function from an arguments map to a result string or the string
form of a raised exception (`execute` stringifies the returned value, and a
raised exception is modelled as `Except.error (str exc)`). -/
structure Tool where
  name : String
  description : String
  parameters : JVal
  run : List (String × String) → Except String String

/-- Tool.to_schema from `src/agentouto/tool.py` lines 57-62. -/
def Tool.to_schema (t : Tool) : JVal :=
  JVal.obj
    [("name", JVal.str t.name),
     ("description", JVal.str t.description),
     ("parameters", t.parameters)]

/-! ## Agents, providers, exceptions -/

/-- Agent from `src/agentouto/agent.py` (the `agnetouto` package imports the
same dataclass).  `temperature` is a Python float never inspected by the core
loop, embedded as a rational; `extra` is an open keyword dict forwarded to the
vendor SDK, embedded as an association list of JSON-like values. -/
structure Agent where
  name : String
  instructions : String
  model : String
  provider : String
  max_output_tokens : Option Nat := some 4096
  reasoning : Bool := false
  reasoning_effort : String := "medium"
  reasoning_budget : Option Nat := none
  temperature : Rat := 1
  extra : List (String × JVal) := []

/-- Provider from `src/agnetouto/provider.py`. -/
structure Provider where
  name : String
  kind : String
  api_key : String
  base_url : Option String := none
deriving Repr, DecidableEq

/-- The exception taxonomy from `src/agnetouto/exceptions.py`, restricted to
the exceptions the embedded code paths can raise. -/
inductive Exc where
  | routing (message : String)
  | tool (tool_name message : String)
  | provider (provider_name message : String)
deriving Repr, DecidableEq

/-- The `str()` of each exception, fixed by each class `__init__` calling
`super().__init__` in `src/agnetouto/exceptions.py`: RoutingError keeps its
message, ToolError and ProviderError prefix `[name] `. -/
def Exc.toStr : Exc → String
  | .routing m => m
  | .tool n m => "[" ++ n ++ "] " ++ m
  | .provider n m => "[" ++ n ++ "] " ++ m

/-- The CALL_AGENT sentinel name from the `_constants` module.  The module
itself is not under `src/`, but every use site and the spec fix the value. -/
def CALL_AGENT : String := "call_agent"

/-- The FINISH sentinel name from the `_constants` module (same remark). -/
def FINISH : String := "finish"

/-! ## Router (src/agnetouto/router.py) -/

/-- Insertion into a Python-dict-like association list: a later binding for an
existing key overwrites the value but keeps the first-insertion position, as
in a `dict` comprehension or item assignment. -/
def dictInsert [DecidableEq κ] (assoc : List (κ × α)) (k : κ) (v : α) : List (κ × α) :=
  if assoc.any (fun p => p.1 = k) then
    assoc.map (fun p => if p.1 = k then (k, v) else p)
  else
    assoc ++ [(k, v)]

/-- Builds the dict `{x.name: x for x in xs}` used by the Router constructor. -/
def dictOfList (key : α → String) (xs : List α) : List (String × α) :=
  xs.foldl (fun acc x => dictInsert acc (key x) x) []

/-- Value lookup in a dict-like association list (`d.get(k)` / `k in d`). -/
def dictGet [DecidableEq κ] (assoc : List (κ × α)) (k : κ) : Option α :=
  ((assoc.find? (fun p => p.1 = k)).map Prod.snd)

/-- Router from `src/agnetouto/router.py` lines 14-24: agents, tools and
providers keyed by name (duplicates resolved last-write-wins by the dict). -/
structure Router where
  agents : List (String × Agent)
  tools : List (String × Tool)
  providers : List (String × Provider)

/-- The Router constructor from `src/agnetouto/router.py` lines 15-23. -/
def mkRouter (agents : List Agent) (tools : List Tool) (providers : List Provider) :
    Router :=
  { agents := dictOfList Agent.name agents,
    tools := dictOfList Tool.name tools,
    providers := dictOfList Provider.name providers }

/-- Router.get_agent from `src/agnetouto/router.py` lines 34-37: unknown names
raise RoutingError. -/
def Router.get_agent (r : Router) (name : String) : Except Exc Agent :=
  match dictGet r.agents name with
  | some a => .ok a
  | none => .error (.routing ("Unknown agent: " ++ name))

/-- Router.get_tool from `src/agnetouto/router.py` lines 39-42: unknown names
raise ToolError. -/
def Router.get_tool (r : Router) (name : String) : Except Exc Tool :=
  match dictGet r.tools name with
  | some t => .ok t
  | none => .error (.tool name "Tool not found")

/-- The `call_agent` sentinel schema appended by Router.build_tool_schemas
(`src/agnetouto/router.py` lines 50-72). -/
def callAgentSchema : JVal :=
  JVal.obj
    [("name", JVal.str CALL_AGENT),
     ("description", JVal.str
        ("Call another agent. The agent will process your message " ++
         "and return a result when done.")),
     ("parameters", JVal.obj
        [("type", JVal.str "object"),
         ("properties", JVal.obj
            [("agent_name", JVal.obj
                [("type", JVal.str "string"),
                 ("description", JVal.str "Name of the agent to call")]),
             ("message", JVal.obj
                [("type", JVal.str "string"),
                 ("description", JVal.str "Message to send to the agent")])]),
         ("required", JVal.arr [JVal.str "agent_name", JVal.str "message"])])]

/-- The `finish` sentinel schema appended by Router.build_tool_schemas
(`src/agnetouto/router.py` lines 74-92). -/
def finishSchema : JVal :=
  JVal.obj
    [("name", JVal.str FINISH),
     ("description", JVal.str
        ("Finish the current task and return a result to the caller. " ++
         "The caller may be a user or another agent.")),
     ("parameters", JVal.obj
        [("type", JVal.str "object"),
         ("properties", JVal.obj
            [("message", JVal.obj
                [("type", JVal.str "string"),
                 ("description", JVal.str "Result message to return")])]),
         ("required", JVal.arr [JVal.str "message"])])]

/-- Router.build_tool_schemas from `src/agnetouto/router.py` lines 44-94:
`to_schema()` of every registered tool in dict order, then the two sentinel
schemas.  The `current_agent` argument is accepted and, as in the source,
not used. -/
def Router.build_tool_schemas (r : Router) (_current_agent : String) : List JVal :=
  (r.tools.map (fun p => p.2.to_schema)) ++ [callAgentSchema, finishSchema]

/-- Router.build_system_prompt from `src/agnetouto/router.py` lines 96-113. -/
def Router.build_system_prompt (r : Router) (agent : Agent) : String :=
  let other_agents := (r.agents.map Prod.snd).filter (fun a => a.name ≠ agent.name)
  let lines :=
    ["You are \"" ++ agent.name ++ "\". " ++ agent.instructions] ++
    (if !other_agents.isEmpty then
      ["", "Available agents:"] ++
        other_agents.map (fun a => "- " ++ a.name ++ ": " ++ a.instructions)
    else []) ++
    ["",
     "Use call_agent to delegate work to other agents.",
     "Use finish to complete your task and return the result."]
  String.intercalate "\n" lines

/-! ## Reasoning-content stripping (src/agentouto/providers/__init__.py)

The source removes reasoning blocks with the compiled regex
`<(think|thinking|reason|reasoning)>.*?(?:</\1>|$)` under DOTALL and then
calls `str.strip()`.  The embedding below interprets that regex exactly:
`re.sub` scans left to right; at a position where one of the four opening
tags matches, the non-greedy body ends at the earliest following matching
closing tag, or at the `$` anchor; without MULTILINE, `$` matches at the end
of the string or just before a final newline, so an unclosed tag consumes to
the end of the string except that a final newline survives (and is then
removed by `strip()`). -/

/-- Python `str.strip()` whitespace set (ASCII part; the runtime only ever
strips ASCII text produced by these code paths). -/
def isPySpace (c : Char) : Bool :=
  c = ' ' || c = '\t' || c = '\n' || c = '\r' || c = '\x0b' || c = '\x0c'

/-- Python `str.strip()` on a character list: drop trailing then leading
whitespace. -/
def trimChars (l : List Char) : List Char :=
  ((l.reverse.dropWhile isPySpace).reverse).dropWhile isPySpace

/-- The four tag names of `_REASONING_TAG_RE`, in alternation order. -/
def REASONING_TAGS : List String := ["think", "thinking", "reason", "reasoning"]

/-- The opening form `<tag>` of a reasoning tag. -/
def tagOpen (tag : String) : List Char := '<' :: (tag.data ++ ['>'])

/-- The closing form `</tag>` of a reasoning tag. -/
def tagClose (tag : String) : List Char := '<' :: '/' :: (tag.data ++ ['>'])

/-- Index of the earliest occurrence of `close` as a sublist of `l` (the
non-greedy `.*?` stops at the first matching closing tag). -/
def findCloseIdx (close : List Char) : List Char → Option Nat
  | [] => if close.isEmpty then some 0 else none
  | c :: rest =>
    if close.isPrefixOf (c :: rest) then some 0
    else (findCloseIdx close rest).map (· + 1)

/-- One pass of `_REASONING_TAG_RE.sub("", ·)` over the character list, as the
source regex behaves: text outside reasoning blocks is kept; a block opened by
`<tag>` is dropped up to and including the earliest `</tag>`; an unclosed
block is dropped to the end of the string, except that the `$` anchor lets a
final newline survive. -/
def stripAuxCode : List Char → List Char
  | [] => []
  | c :: rest =>
    match REASONING_TAGS.find? (fun t => (tagOpen t).isPrefixOf (c :: rest)) with
    | none => c :: stripAuxCode rest
    | some t =>
      match findCloseIdx (tagClose t) (List.drop (t.length + 2) (c :: rest)) with
      | some i =>
        stripAuxCode (List.drop (i + (t.length + 3)) (List.drop (t.length + 2) (c :: rest)))
      | none =>
        if (List.drop (t.length + 2) (c :: rest)).getLast? = some '\n' then ['\n'] else []
termination_by cs => cs.length
decreasing_by
  all_goals simp_wf
  all_goals omega

/-- Modelled from the spec: the stripping transform as §4.2 and the claim
describe it — every maximal block `<tag>…(</tag>|end-of-string)` removed, an
unclosed tag consuming to the very end of the string.  This is the comparison
point for the code-side `stripAuxCode`. -/
def stripAuxSpec : List Char → List Char
  | [] => []
  | c :: rest =>
    match REASONING_TAGS.find? (fun t => (tagOpen t).isPrefixOf (c :: rest)) with
    | none => c :: stripAuxSpec rest
    | some t =>
      match findCloseIdx (tagClose t) (List.drop (t.length + 2) (c :: rest)) with
      | some i =>
        stripAuxSpec (List.drop (i + (t.length + 3)) (List.drop (t.length + 2) (c :: rest)))
      | none => []
termination_by cs => cs.length
decreasing_by
  all_goals simp_wf
  all_goals omega

/-- The `_content_outside_reasoning` utility from
`src/agentouto/providers/__init__.py` lines 20-28: regex removal then
`strip()`. -/
def contentOutsideReasoning (s : String) : String :=
  String.mk (trimChars (stripAuxCode s.data))

/-- The same composition with the spec-described removal, for the
refinement comparison. -/
def contentOutsideReasoningSpec (s : String) : String :=
  String.mk (trimChars (stripAuxSpec s.data))

/-- LLMResponse.content_without_reasoning from
`src/agentouto/providers/__init__.py` lines 42-48: `None` for `None` content,
otherwise the stripped text, collapsed to `None` when empty (`result or
None`). -/
def LLMResponse.content_without_reasoning (r : LLMResponse) : Option String :=
  match r.content with
  | none => none
  | some s =>
    let result := contentOutsideReasoning s
    if result = "" then none else some result

/-! ## Batch runtime loop (src/agnetouto/runtime.py and src/agentouto/runtime.py)

The two runtime files share the agent-loop control flow verbatim
(`_run_agent_loop`, `_execute_tool_call`, `_find_finish`); the `agentouto`
version additionally records AgentEvents and user-visible Messages.  The
interpreter below embeds that loop.  The external LLM adapter is a script: a
list of `LLMResponse` values consumed one per `call_llm`, exactly the
MockBackend of `src/tests/test_runtime.py`; uuid call ids and wall-clock
timestamps are omitted from the recorded events; the forward/return Message
log mirrors the agent_call/agent_return events one-to-one and is not
duplicated.  `asyncio.gather(*tasks, return_exceptions=True)` launches the
per-call coroutines in list order and returns their outcomes in that same
list order regardless of completion order; the interpreter therefore threads
the script through the dispatches in list order and collects outcomes in
list order.  Fuel bounds the recursion; `none` means the fuel or the script
ran out before the loop finished. -/

/-- The `_truncate` helper from `src/agentouto/runtime.py` lines 372-375. -/
def pyTruncate (text : String) (max_len : Nat := 200) : String :=
  if text.length ≤ max_len then text else text.take max_len ++ "..."

/-- The `_find_finish` helper from `src/agnetouto/runtime.py` lines 71-75 (and
identically `src/agentouto/runtime.py` lines 365-369): the first tool call
named `finish`, scanning left to right. -/
def findFinish (tool_calls : List ToolCall) : Option ToolCall :=
  tool_calls.find? (fun tc => tc.name = FINISH)

/-- An AgentEvent as `Runtime._record` emits it (`src/agentouto/runtime.py`),
restricted to event type, agent name and the recorded details; uuid call ids
and timestamps are omitted. -/
inductive Ev where
  | llm_call (agent_name model : String)
  | llm_response (agent_name : String) (has_tool_calls : Bool) (content_length : Nat)
  | finish_ev (agent_name result : String)
  | tool_exec (agent_name tool_name : String) (arguments : List (String × String))
  | agent_call (agent_name from_agent message : String)
  | agent_return (agent_name result : String)
deriving Repr, DecidableEq

/-- The conversion the batch loop applies to each gathered outcome
(`src/agnetouto/runtime.py` lines 51-55): an exception value becomes the tool
result string `Error: <exc>`, a normal value is kept. -/
def captureResult : Except Exc String → String
  | .ok s => s
  | .error e => "Error: " ++ e.toStr

/-- The loop of appends `context.add_tool_result(tc.id, tc.name, result)` over
the zipped tool calls and converted results (`src/agnetouto/runtime.py`
lines 51-55). -/
def addToolResults (ctx : Context) (tcs : List ToolCall) (results : List String) :
    Context :=
  (tcs.zip results).foldl (fun c p => c.add_tool_result p.1.id p.1.name p.2) ctx

/-- The initial Context `_run_agent_loop` builds before entering its while
loop (`src/agnetouto/runtime.py` lines 28-30): system prompt from the Router,
then the forward message as a user message. -/
def initialContext (r : Router) (agent : Agent) (forward_message : String) : Context :=
  (Context.mk (r.build_system_prompt agent) []).add_user forward_message

mutual

/-- The while loop of `Runtime._run_agent_loop` (`src/agnetouto/runtime.py`
lines 33-55; `src/agentouto/runtime.py` lines 103-138 with event recording).
Returns the events recorded, the outcome (output string and final Context, or
a propagated exception), and the unconsumed remainder of the response script.
`Router.call_llm` (`src/agnetouto/router.py` lines 120-125) first looks up
the agent's provider, raising ProviderError when absent, then delegates to
the backend, which the script models. -/
def loopWhile : Nat → Router → Agent → Context → List LLMResponse →
    Option (List Ev × Except Exc (String × Context) × List LLMResponse)
  | 0, _, _, _, _ => none
  | fuel + 1, r, agent, ctx, script =>
    let evCall := Ev.llm_call agent.name agent.model
    match dictGet r.providers agent.provider with
    | none => some ([evCall], .error (.provider agent.provider "Provider not found"), script)
    | some _ =>
      match script with
      | [] => none
      | resp :: rest =>
        let evResp := Ev.llm_response agent.name (!resp.tool_calls.isEmpty)
          ((resp.content.map String.length).getD 0)
        if resp.tool_calls.isEmpty then
          some ([evCall, evResp], .ok (resp.content.getD "", ctx), rest)
        else
          match findFinish resp.tool_calls with
          | some fc =>
            let result := argGet fc.arguments "message"
            some ([evCall, evResp, Ev.finish_ev agent.name (pyTruncate result)],
              .ok (result, ctx), rest)
          | none =>
            let ctx1 := ctx.add_assistant_tool_calls resp.tool_calls resp.content
            match dispatchList fuel r agent.name resp.tool_calls rest with
            | none => none
            | some (devs, results, rest1) =>
              let ctx2 := addToolResults ctx1 resp.tool_calls (results.map captureResult)
              match loopWhile fuel r agent ctx2 rest1 with
              | none => none
              | some (evs, res, rest2) => some ([evCall, evResp] ++ devs ++ evs, res, rest2)
termination_by fuel _ _ _ _ => (fuel, 0, 0)

/-- The parallel fan-out `asyncio.gather(*tasks, return_exceptions=True)` over
`_execute_tool_call` for each tool call (`src/agnetouto/runtime.py`
lines 45-49): outcomes are collected in the order of the tool-call list. -/
def dispatchList : Nat → Router → String → List ToolCall → List LLMResponse →
    Option (List Ev × List (Except Exc String) × List LLMResponse)
  | _, _, _, [], script => some ([], [], script)
  | fuel, r, caller, tc :: tcs, script =>
    match dispatchOne fuel r caller tc script with
    | none => none
    | some (evs1, res1, script1) =>
      match dispatchList fuel r caller tcs script1 with
      | none => none
      | some (evs2, results, script2) => some (evs1 ++ evs2, res1 :: results, script2)
termination_by fuel _ _ tcs _ => (fuel, 2, tcs.length + 1)

/-- `Runtime._execute_tool_call` (`src/agnetouto/runtime.py` lines 57-68;
`src/agentouto/runtime.py` lines 140-189 with event recording): `call_agent`
resolves the target (RoutingError when unknown) and recurses with a fresh
Context; any other name records `tool_exec`, resolves the Tool (ToolError
when unknown) and executes it, a raised exception being wrapped as
`ToolError(tc.name, str(exc))`. -/
def dispatchOne : Nat → Router → String → ToolCall → List LLMResponse →
    Option (List Ev × Except Exc String × List LLMResponse)
  | fuel, r, caller, tc, script =>
    if tc.name = CALL_AGENT then
      let agent_name := argGet tc.arguments "agent_name"
      let message := argGet tc.arguments "message"
      match r.get_agent agent_name with
      | .error e => some ([], .error e, script)
      | .ok target =>
        match loopWhile fuel r target (initialContext r target message) script with
        | none => none
        | some (subEvs, .error e, rest) =>
          some (Ev.agent_call agent_name caller (pyTruncate message) :: subEvs, .error e, rest)
        | some (subEvs, .ok (result, _), rest) =>
          some ((Ev.agent_call agent_name caller (pyTruncate message) :: subEvs) ++
            [Ev.agent_return agent_name (pyTruncate result)], .ok result, rest)
    else
      let evExec := Ev.tool_exec caller tc.name tc.arguments
      match r.get_tool tc.name with
      | .error e => some ([evExec], .error e, script)
      | .ok tool =>
        match tool.run tc.arguments with
        | .ok s => some ([evExec], .ok s, script)
        | .error m => some ([evExec], .error (.tool tc.name m), script)
termination_by fuel _ _ _ _ => (fuel, 1, 0)

end

/-- `Runtime._run_agent_loop` (`src/agnetouto/runtime.py` lines 27-55): build
the system prompt and a fresh Context holding the forward message, then run
the while loop. -/
def runAgentLoop (fuel : Nat) (r : Router) (agent : Agent) (forward_message : String)
    (script : List LLMResponse) :
    Option (List Ev × Except Exc (String × Context) × List LLMResponse) :=
  loopWhile fuel r agent (initialContext r agent forward_message) script

/-! ## Streaming runtime loop (src/agentouto/runtime.py lines 227-338)

`Runtime._stream_agent_loop` is an async generator.  The embedding returns
the list of StreamEvents it yields, in order.  The adapter stream
(`Router.stream_llm`; the `agentouto` router module is not under `src/`, so
per the §4.5 contract it is modelled as yielding a scripted chunk list per
LLM call) is a script: a list of chunk lists, one consumed per call, an empty
or exhausted entry meaning the adapter yielded no final response.  Unlike the
batch path, tool calls are processed serially, sub-agent events are forwarded
to the caller, and exceptions from `get_agent`/`get_tool` escape the
generator: the embedding reports them as an `Except.error` alongside the
events already yielded.  The `self._messages` forward/return log is omitted
as in the batch model. -/

/-- The payload of one StreamEvent (`src/agentouto/streaming.py`): the
constructor fixes the `type` field, the arguments the `data` dict. -/
inductive SEData where
  | token (text : String)
  | tool_call (tool_name : String) (arguments : List (String × String))
  | agent_call (from_agent message : String)
  | agent_return (result : String)
  | finish (output : String)
  | error (message : String)
deriving Repr, DecidableEq

/-- StreamEvent from `src/agentouto/streaming.py`: agent name plus payload. -/
structure SEvent where
  agent_name : String
  data : SEData
deriving Repr, DecidableEq

/-- The `type` literal of a StreamEvent. -/
def SEvent.type (e : SEvent) : String :=
  match e.data with
  | .token _ => "token"
  | .tool_call _ _ => "tool_call"
  | .agent_call _ _ => "agent_call"
  | .agent_return _ => "agent_return"
  | .finish _ => "finish"
  | .error _ => "error"

/-- The `output` carried by a finish event, `""` otherwise
(`event.data.get("output", "")`). -/
def SEvent.finishOutput (e : SEvent) : String :=
  match e.data with
  | .finish out => out
  | _ => ""

/-- The token events the chunk loop yields for one adapter stream
(`src/agentouto/runtime.py` lines 243-253): one `token` event per string
chunk, in order. -/
def tokenEvents (agent_name : String) (entry : List StreamChunk) : List SEvent :=
  entry.filterMap (fun c =>
    match c with
    | .text s => some ⟨agent_name, .token s⟩
    | .response _ => none)

/-- The final response the chunk loop retains: each LLMResponse chunk
overwrites `response`, so the last one wins; `none` when the adapter yielded
no LLMResponse chunk. -/
def lastResponse (entry : List StreamChunk) : Option LLMResponse :=
  entry.foldl (fun acc c =>
    match c with
    | .response resp => some resp
    | .text _ => acc) none

/-- The running `sub_result` captured while forwarding sub-agent events
(`src/agentouto/runtime.py` lines 304-310): each forwarded finish event
overwrites it, starting from `""`. -/
def subResultOf (events : List SEvent) : String :=
  events.foldl (fun acc ev =>
    match ev.data with
    | .finish out => out
    | _ => acc) ""

mutual

/-- The while loop of `Runtime._stream_agent_loop`
(`src/agentouto/runtime.py` lines 241-338).  Returns the yielded events, the
way the generator ended (`.ok` for a `return`, `.error` for an escaped
exception), and the unconsumed script. -/
def streamWhile : Nat → Router → Agent → Context → List (List StreamChunk) →
    Option (List SEvent × Except Exc Unit × List (List StreamChunk))
  | 0, _, _, _, _ => none
  | fuel + 1, r, agent, ctx, script =>
    let entry := script.headD []
    let rest := script.tail
    let toks := tokenEvents agent.name entry
    match lastResponse entry with
    | none => some (toks ++ [⟨agent.name, .error "No response from LLM"⟩], .ok (), rest)
    | some resp =>
      if resp.tool_calls.isEmpty then
        some (toks ++ [⟨agent.name, .finish (resp.content.getD "")⟩], .ok (), rest)
      else
        match findFinish resp.tool_calls with
        | some fc =>
          some (toks ++ [⟨agent.name, .finish (argGet fc.arguments "message")⟩], .ok (), rest)
        | none =>
          let ctx1 := ctx.add_assistant_tool_calls resp.tool_calls resp.content
          match streamDispatch fuel r agent resp.tool_calls ctx1 rest with
          | none => none
          | some (devs, .error e, rest1) => some (toks ++ devs, .error e, rest1)
          | some (devs, .ok ctx2, rest1) =>
            match streamWhile fuel r agent ctx2 rest1 with
            | none => none
            | some (evs, res, rest2) => some (toks ++ devs ++ evs, res, rest2)
termination_by fuel _ _ _ _ => (fuel, 0, 0)

/-- The serial `for tc in response.tool_calls` dispatch of the streaming loop
(`src/agentouto/runtime.py` lines 282-338): `call_agent` resolves the target
(an unknown target raises RoutingError out of the generator, before any event
for this call), emits `agent_call`, recurses with a fresh Context, forwards
every sub-event, emits `agent_return`, and appends the sub-result as the tool
result; any other name resolves the Tool (ToolError escapes likewise), emits
`tool_call`, executes serially, a raised exception becoming the result string
`Error: <exc>`, and appends the result. -/
def streamDispatch : Nat → Router → Agent → List ToolCall → Context →
    List (List StreamChunk) →
    Option (List SEvent × Except Exc Context × List (List StreamChunk))
  | _, _, _, [], ctx, script => some ([], .ok ctx, script)
  | fuel, r, agent, tc :: tcs, ctx, script =>
    if tc.name = CALL_AGENT then
      let target_name := argGet tc.arguments "agent_name"
      let msg := argGet tc.arguments "message"
      match r.get_agent target_name with
      | .error e => some ([], .error e, script)
      | .ok target =>
        let callEv : SEvent := ⟨target_name, .agent_call agent.name (pyTruncate msg)⟩
        match streamWhile fuel r target (initialContext r target msg) script with
        | none => none
        | some (subEvs, .error e, rest1) => some (callEv :: subEvs, .error e, rest1)
        | some (subEvs, .ok (), rest1) =>
          let sub_result := subResultOf subEvs
          let retEv : SEvent := ⟨target_name, .agent_return (pyTruncate sub_result)⟩
          let ctx2 := ctx.add_tool_result tc.id tc.name sub_result
          match streamDispatch fuel r agent tcs ctx2 rest1 with
          | none => none
          | some (devs, res, rest2) =>
            some ((callEv :: subEvs) ++ [retEv] ++ devs, res, rest2)
    else
      match r.get_tool tc.name with
      | .error e => some ([], .error e, script)
      | .ok tool =>
        let tEv : SEvent := ⟨agent.name, .tool_call tc.name tc.arguments⟩
        let result :=
          match tool.run tc.arguments with
          | .ok s => s
          | .error m => "Error: " ++ m
        let ctx2 := ctx.add_tool_result tc.id tc.name result
        match streamDispatch fuel r agent tcs ctx2 script with
        | none => none
        | some (devs, res, rest2) => some (tEv :: devs, res, rest2)
termination_by fuel _ _ tcs _ _ => (fuel, 1, tcs.length + 1)

end

/-- `Runtime._stream_agent_loop` (`src/agentouto/runtime.py` lines 227-338):
fresh Context from the forward message, then the chunk-consuming while
loop. -/
def streamAgentLoop (fuel : Nat) (r : Router) (agent : Agent)
    (forward_message : String) (script : List (List StreamChunk)) :
    Option (List SEvent × Except Exc Unit × List (List StreamChunk)) :=
  streamWhile fuel r agent (initialContext r agent forward_message) script

/-- Count of terminator (`finish` or `error`) StreamEvents in a sequence. -/
def countTerminators (events : List SEvent) : Nat :=
  (events.filter (fun e => e.type = "finish" || e.type = "error")).length

/-- Count of `agent_call` StreamEvents in a sequence. -/
def countAgentCalls (events : List SEvent) : Nat :=
  (events.filter (fun e => e.type = "agent_call")).length

/-! ## Provider adapters: response normalization

Each adapter wraps a vendor SDK call; the network call itself is external,
so the embeddings below model what each adapter does with the vendor
response it received (the code paths the emptiness claims are about).
`json.loads` of a tool-argument payload is an external library call and is
passed in as a partial parser. -/

/-- One raw tool call of an OpenAI chat response
(`response.choices[0].message.tool_calls[i]`). -/
structure OAToolCall where
  id : String
  function_name : String
  function_arguments : String
deriving Repr, DecidableEq

/-- The message of one OpenAI choice. -/
structure OAMessage where
  content : Option String := none
  tool_calls : List OAToolCall := []
deriving Repr, DecidableEq

/-- One OpenAI choice. -/
structure OAChoice where
  message : OAMessage
deriving Repr, DecidableEq

/-- An OpenAI chat-completions response, as `OpenAIBackend.call` reads it. -/
structure OAResponse where
  choices : List OAChoice
deriving Repr, DecidableEq

/-- The response handling of `OpenAIBackend.call`
(`src/agnetouto/providers/openai.py` lines 57-77): no choices raises
ProviderError; otherwise the first choice's message becomes the LLMResponse,
each tool call's arguments parsed by `json.loads`, a parse failure producing
`raw` holding the original string. -/
def openaiNormalize (parseArgs : String → Option (List (String × String)))
    (provider_name : String) (response : OAResponse) : Except Exc LLMResponse :=
  match response.choices with
  | [] => .error (.provider provider_name "Empty response: no choices returned")
  | choice :: _ =>
    let msg := choice.message
    let parsed_calls : List ToolCall := msg.tool_calls.map (fun tc =>
      { id := tc.id, name := tc.function_name,
        arguments :=
          match parseArgs tc.function_arguments with
          | some args => args
          | none => [("raw", tc.function_arguments)] })
    .ok { content := msg.content, tool_calls := parsed_calls }

/-- A Google `function_call` part payload (`fn.name`, `fn.args`; an absent or
empty `args` map reads as the empty dict). -/
structure GFunctionCall where
  name : String
  args : List (String × String) := []
deriving Repr, DecidableEq

/-- One part of a Google candidate content: proto presence of
`function_call` and non-empty `text` are what the source tests. -/
structure GPart where
  function_call : Option GFunctionCall := none
  text : Option String := none
deriving Repr, DecidableEq

/-- One Google candidate (its `content.parts`). -/
structure GCandidate where
  parts : List GPart
deriving Repr, DecidableEq

/-- A Google generate-content response, as `GoogleBackend.call` reads it. -/
structure GResponse where
  candidates : List GCandidate
deriving Repr, DecidableEq

/-- The part-folding of `GoogleBackend.call`
(`src/agnetouto/providers/google.py` lines 72-86): function-call parts with a
non-empty name append a ToolCall with a synthesized uuid id (modelled by
`freshId` on the running count); otherwise a truthy `text` part appends to
the content, which starts as `None`. -/
def googleFoldParts (freshId : Nat → String) (parts : List GPart) :
    Option String × List ToolCall :=
  parts.foldl (fun st part =>
    match part.function_call with
    | some fn =>
      if fn.name ≠ "" then
        (st.1, st.2 ++ [{ id := freshId st.2.length, name := fn.name, arguments := fn.args }])
      else
        match part.text with
        | some t => if t ≠ "" then (some (st.1.getD "" ++ t), st.2) else st
        | none => st
    | none =>
      match part.text with
      | some t => if t ≠ "" then (some (st.1.getD "" ++ t), st.2) else st
      | none => st) (none, [])

/-- The response handling of `GoogleBackend.call`
(`src/agnetouto/providers/google.py` lines 69-88): no candidates raises
ProviderError; otherwise the first candidate's parts are folded into the
LLMResponse. -/
def googleNormalize (freshId : Nat → String) (provider_name : String)
    (response : GResponse) : Except Exc LLMResponse :=
  match response.candidates with
  | [] => .error (.provider provider_name "Empty response: no candidates returned")
  | cand :: _ =>
    let st := googleFoldParts freshId cand.parts
    .ok { content := st.1, tool_calls := st.2 }

/-- An Anthropic streaming event, restricted to the fields
`AnthropicBackend._stream_response` reads. -/
inductive AEvent where
  | content_block_start (index : Nat) (block_type : String) (id name : String)
  | text_delta (text : String)
  | input_json_delta (index : Nat) (partial_json : String)
  | other_event
deriving Repr, DecidableEq

/-- One accumulated Anthropic tool block (`tool_blocks[index]`). -/
structure ABlock where
  id : String
  name : String
  input_json : String
deriving Repr, DecidableEq

/-- The event-accumulation loop of `AnthropicBackend._stream_response`
(`src/agentouto/providers/anthropic.py` lines 121-138): `tool_use` block
starts register a block at the event index; text deltas extend the
accumulated content; input-json deltas extend the block registered at their
index, when one exists. -/
def anthropicAccumulate (events : List AEvent) : String × List (Nat × ABlock) :=
  events.foldl (fun st ev =>
    match ev with
    | .content_block_start idx block_type bid bname =>
      if block_type = "tool_use" then
        (st.1, dictInsert st.2 idx { id := bid, name := bname, input_json := "" })
      else st
    | .text_delta t => (st.1 ++ t, st.2)
    | .input_json_delta idx pj =>
      if (dictGet st.2 idx).isSome then
        (st.1, st.2.map (fun p =>
          if p.1 = idx then (p.1, { p.2 with input_json := p.2.input_json ++ pj }) else p))
      else st
    | .other_event => st) ("", [])

/-- Insertion sort of the accumulated blocks by index
(`for idx in sorted(tool_blocks)`). -/
def insertByIdx (p : Nat × ABlock) : List (Nat × ABlock) → List (Nat × ABlock)
  | [] => [p]
  | q :: qs => if p.1 ≤ q.1 then p :: q :: qs else q :: insertByIdx p qs

/-- Sorts an index-keyed block list ascending by index. -/
def sortByIdx (l : List (Nat × ABlock)) : List (Nat × ABlock) :=
  l.foldr insertByIdx []

/-- The post-stream normalization of `AnthropicBackend._stream_response`
(`src/agentouto/providers/anthropic.py` lines 143-160): an empty accumulation
(no text, no tool blocks) raises ProviderError; otherwise blocks are parsed
in index order (`json.loads` when the input json is non-empty, a failure or
an empty payload giving the empty dict) and the final LLMResponse carries the
accumulated content, collapsed to `None` when empty. -/
def anthropicNormalize (parseArgs : String → Option (List (String × String)))
    (provider_name : String) (events : List AEvent) : Except Exc LLMResponse :=
  let st := anthropicAccumulate events
  if st.1 = "" ∧ st.2.isEmpty then
    .error (.provider provider_name "Empty response: no content blocks returned")
  else
    let parsed_calls := (sortByIdx st.2).map (fun p =>
      { id := p.2.id, name := p.2.name,
        arguments :=
          if p.2.input_json ≠ "" then (parseArgs p.2.input_json).getD [] else [] : ToolCall })
    .ok { content := if st.1 ≠ "" then some st.1 else none, tool_calls := parsed_calls }

/-! ## Context well-formedness (spec §8 invariant 2) -/

/-- Whether the first `tcs.length` messages of `msgs` are tool messages whose
`tool_call_id`s are the ids of `tcs`, in order. -/
def blockMatches (tcs : List ToolCall) (msgs : List ContextMessage) : Bool :=
  (tcs.length ≤ msgs.length) &&
    (tcs.zip msgs).all (fun p => p.2.role = "tool" && p.2.tool_call_id = some p.1.id)

/-- The tool-result id-matching invariant: every assistant message carrying a
non-empty tool-call list is immediately followed by exactly that many tool
messages, with `tool_call_id`s equal to the call ids in order. -/
def wfB : List ContextMessage → Bool
  | [] => true
  | m :: rest =>
    if m.role = "assistant" then
      match m.tool_calls with
      | some (tc :: tcs) =>
        blockMatches (tc :: tcs) rest && wfB (rest.drop (tc :: tcs).length)
      | _ => wfB rest
    else wfB rest
termination_by msgs => msgs.length
decreasing_by
  all_goals simp_wf
  all_goals omega

/-! ## Projections and concrete fixtures used by the example-level theorems -/

/-- The turn outcome of a batch run, projected to the output string. -/
def batchOutput (res : Option (List Ev × Except Exc (String × Context) × List LLMResponse)) :
    Option (Except Exc String) :=
  res.map (fun t => t.2.1.map Prod.fst)

/-- The contents of the tool-result messages in the final Context of a batch
run (empty on a propagated exception). -/
def batchToolMessages
    (res : Option (List Ev × Except Exc (String × Context) × List LLMResponse)) :
    Option (List (Option String)) :=
  res.map (fun t =>
    match t.2.1 with
    | .ok (_, ctx) => ((ctx.messages.filter (fun m => m.role = "tool")).map (fun m => m.content))
    | .error _ => [])

/-- The event types of a streaming run, in emission order. -/
def streamTypes (res : Option (List SEvent × Except Exc Unit × List (List StreamChunk))) :
    Option (List String) :=
  res.map (fun t => t.1.map SEvent.type)

/-- The number of terminator events of a streaming run. -/
def streamTerminatorCount
    (res : Option (List SEvent × Except Exc Unit × List (List StreamChunk))) : Option Nat :=
  res.map (fun t => countTerminators t.1)

/-- Fixture: a provider named `p` of kind `openai`. -/
def provW : Provider := { name := "p", kind := "openai", api_key := "k" }

/-- Fixture: an agent `a` bound to provider `p`. -/
def agentA : Agent := { name := "a", instructions := "i", model := "m", provider := "p" }

/-- Fixture: an agent `b` bound to provider `p`. -/
def agentB : Agent := { name := "b", instructions := "j", model := "m", provider := "p" }

/-- Fixture: a tool that echoes its `text` argument. -/
def toolEcho : Tool :=
  { name := "echo", description := "d", parameters := buildParametersSchema [({ name := "text", annotation := some PyType.pstr } : PyParam)],
    run := fun args => .ok ("echo:" ++ argGet args "text") }

/-- Fixture: a tool whose callable always raises. -/
def toolBoom : Tool :=
  { name := "boom", description := "d", parameters := buildParametersSchema [],
    run := fun _ => .error "boom failed" }

/-- Fixture: the Router over agents `a`, `b`, tools `echo`, `boom`,
provider `p`. -/
def routerAB : Router := mkRouter [agentA, agentB] [toolEcho, toolBoom] [provW]

/-- Fixture: a response calling the unknown agent `ghost`. -/
def respGhost : LLMResponse :=
  { tool_calls := [{ id := "tc1", name := "call_agent",
                     arguments := [("agent_name", "ghost"), ("message", "hi")] }] }

/-- Fixture: a response invoking the finish sentinel with message `done`. -/
def respDone : LLMResponse :=
  { tool_calls := [{ id := "f1", name := "finish", arguments := [("message", "done")] }] }

/-- Fixture: a response delegating to agent `b` via `call_agent`. -/
def respCallB : LLMResponse :=
  { tool_calls := [{ id := "ca1", name := "call_agent",
                     arguments := [("agent_name", "b"), ("message", "help")] }] }

/-- Fixture: a finish response with message `x` (for the sub-agent). -/
def respFinX : LLMResponse :=
  { tool_calls := [{ id := "f2", name := "finish", arguments := [("message", "x")] }] }

/-- Fixture: a finish response with message `y` (for the parent). -/
def respFinY : LLMResponse :=
  { tool_calls := [{ id := "f3", name := "finish", arguments := [("message", "y")] }] }

/-- Fixture: the streaming script of the nested scenario — the parent
delegates to `b`, `b` finishes with `x`, the parent then finishes with
`y`. -/
def scriptNested : List (List StreamChunk) :=
  [[StreamChunk.response respCallB],
   [StreamChunk.response respFinX],
   [StreamChunk.response respFinY]]

/-- The tool-result ContextMessage `add_tool_result` appends for a call and
its result string. -/
def toolMsgOf (p : ToolCall × String) : ContextMessage :=
  { role := "tool", content := some p.2, tool_call_id := some p.1.id,
    tool_name := some p.1.name }

/-! ## Helper lemmas -/

/-- The first finish in a decomposed tool-call list: scanning left to right,
a finish call preceded only by non-finish calls is the one found. -/
theorem findFinish_decomposed (pre post : List ToolCall) (fc : ToolCall)
    (hname : fc.name = FINISH) (hpre : ∀ tc ∈ pre, tc.name ≠ FINISH) :
    findFinish (pre ++ fc :: post) = some fc := by
  induction pre with
  | nil => simp [findFinish, List.find?_cons, hname]
  | cons hd tl ih =>
    have hhd : hd.name ≠ FINISH := hpre hd (by simp)
    have htl : ∀ tc ∈ tl, tc.name ≠ FINISH := fun tc htc => hpre tc (by simp [htc])
    simpa [findFinish, List.find?_cons, hhd] using ih htl

/-- A nonempty decomposition has `isEmpty = false`. -/
theorem isEmpty_decomposed (pre post : List ToolCall) (fc : ToolCall) :
    (pre ++ fc :: post).isEmpty = false := by
  cases pre <;> simp

/-- dictInsert preserves the absence of a key. -/
theorem dictInsert_keeps_absent [DecidableEq κ] (assoc : List (κ × α)) (k k2 : κ) (v : α)
    (hk : k2 ≠ k) (h : ∀ p ∈ assoc, p.1 ≠ k) : ∀ p ∈ dictInsert assoc k2 v, p.1 ≠ k := by
  intro p hp
  unfold dictInsert at hp
  split at hp
  · obtain ⟨q, hq, hqe⟩ := List.mem_map.mp hp
    split at hqe
    · subst hqe; exact hk
    · subst hqe; exact h q hq
  · rw [List.mem_append] at hp
    rcases hp with hp | hp
    · exact h p hp
    · rw [List.mem_singleton] at hp
      subst hp; exact hk

/-- A key born by no element of the input list is absent from the built
dict. -/
theorem dictOfList_absent (key : α → String) (xs : List α) (k : String)
    (h : ∀ x ∈ xs, key x ≠ k) : dictGet (dictOfList key xs) k = none := by
  have main : ∀ (ys : List α) (acc : List (String × α)), (∀ x ∈ ys, key x ≠ k) →
      (∀ p ∈ acc, p.1 ≠ k) →
      ∀ p ∈ ys.foldl (fun acc x => dictInsert acc (key x) x) acc, p.1 ≠ k := by
    intro ys
    induction ys with
    | nil => intro acc _ hacc; simpa using hacc
    | cons hd tl ih =>
      intro acc hys hacc
      simp only [List.foldl_cons]
      exact ih (dictInsert acc (key hd) hd) (fun x hx => hys x (by simp [hx]))
        (dictInsert_keeps_absent acc k (key hd) hd (hys hd (by simp)) hacc)
  have habs := main xs [] h (by simp)
  simp only [dictOfList] at habs ⊢
  simp only [dictGet]
  rw [List.find?_eq_none.mpr]
  · rfl
  · intro p hp
    simpa using habs p hp

/-! ## Claim theorems -/

/-- C9: the default (non-native) `ProviderBackend.stream` is equivalent to
`call`: it yields exactly `[content, response]` when the content is
non-empty, `[response]` otherwise, so exactly one final LLMResponse — the
same value `call` returned — terminates the stream and the concatenation of
the string chunks equals the final content (empty for null). -/
theorem stream_default_equiv_call (r : LLMResponse) :
    streamResponses (streamDefault r) = [r] ∧
    (streamDefault r).getLast? = some (StreamChunk.response r) ∧
    String.join (streamTexts (streamDefault r)) = r.content.getD "" ∧
    (∀ s, r.content = some s → s ≠ "" →
      streamDefault r = [StreamChunk.text s, StreamChunk.response r]) ∧
    ((r.content = none ∨ r.content = some "") →
      streamDefault r = [StreamChunk.response r]) := by
  refine ⟨?_, ?_, ?_, ?_, ?_⟩
  · cases hr : r.content with
    | none => simp [streamDefault, streamResponses, hr]
    | some s =>
      by_cases hs : s = "" <;>
        simp [streamDefault, streamResponses, hr, hs]
  · cases hr : r.content with
    | none => simp [streamDefault, hr]
    | some s =>
      by_cases hs : s = "" <;>
        simp [streamDefault, hr, hs]
  · cases hr : r.content with
    | none => simp [streamDefault, streamTexts, hr, String.join]
    | some s =>
      by_cases hs : s = "" <;>
        simp [streamDefault, streamTexts, hr, hs, String.join, String.empty_append]
  · intro s hr hs
    simp [streamDefault, hr, hs]
  · intro hr
    rcases hr with hr | hr <;> simp [streamDefault, hr]

/-- Witness for C9 at a concrete response with non-empty content. -/
theorem stream_default_equiv_call_witness :
    streamDefault { content := some "hi" } =
      [StreamChunk.text "hi", StreamChunk.response { content := some "hi" }] :=
  (stream_default_equiv_call { content := some "hi" }).2.2.2.1 "hi" rfl (by decide)

/-- C8: evaluation of `_build_parameters_schema` at the failing input
`search(query: str, limit: int = 10, verbose: bool = False)` — the defaulted
parameters are omitted from `required`, but their property entries hold only
the type: no `default` key is produced, although the repository's own test
`test_core.py::test_default_value_in_schema` asserts `default` is present. -/
theorem build_parameters_schema_drops_defaults :
    ((buildParametersSchema
        [{ name := "query", annotation := some PyType.pstr },
         { name := "limit", annotation := some PyType.pint, hasDefault := true },
         { name := "verbose", annotation := some PyType.pbool, hasDefault := true }]).get
      "required") = some (JVal.arr [JVal.str "query"]) ∧
    (((buildParametersSchema
        [{ name := "query", annotation := some PyType.pstr },
         { name := "limit", annotation := some PyType.pint, hasDefault := true },
         { name := "verbose", annotation := some PyType.pbool, hasDefault := true }]).get
      "properties").bind (fun props => props.get "limit")) =
      some (JVal.obj [("type", JVal.str "integer")]) ∧
    ((((buildParametersSchema
        [{ name := "query", annotation := some PyType.pstr },
         { name := "limit", annotation := some PyType.pint, hasDefault := true },
         { name := "verbose", annotation := some PyType.pbool, hasDefault := true }]).get
      "properties").bind (fun props => props.get "limit")).bind
        (fun prop => prop.get "default")) = none :=
  ⟨rfl, rfl, rfl⟩

/-- C4: for every agent name, `Router.build_tool_schemas` returns the
registered tools' `to_schema()` in dict order followed, in order, by the
`call_agent` sentinel schema (object parameters with string properties
`agent_name` and `message`, both required) and the `finish` sentinel schema
(object parameters with string property `message`, required); when no
registered tool bears a sentinel name, the sentinels are not registered as
Tools — `get_tool` does not know them. -/
theorem build_tool_schemas_sentinels (agents : List Agent) (tools : List Tool)
    (providers : List Provider) (current : String)
    (hs : ∀ t ∈ tools, t.name ≠ CALL_AGENT ∧ t.name ≠ FINISH) :
    (mkRouter agents tools providers).build_tool_schemas current =
      ((mkRouter agents tools providers).tools.map (fun p => p.2.to_schema)) ++
        [callAgentSchema, finishSchema] ∧
    callAgentSchema.get "name" = some (JVal.str "call_agent") ∧
    (callAgentSchema.get "parameters").bind (fun p => p.get "type") =
      some (JVal.str "object") ∧
    (((callAgentSchema.get "parameters").bind (fun p => p.get "properties")).bind
      (fun p => p.get "agent_name")).bind (fun p => p.get "type") =
      some (JVal.str "string") ∧
    (((callAgentSchema.get "parameters").bind (fun p => p.get "properties")).bind
      (fun p => p.get "message")).bind (fun p => p.get "type") =
      some (JVal.str "string") ∧
    (callAgentSchema.get "parameters").bind (fun p => p.get "required") =
      some (JVal.arr [JVal.str "agent_name", JVal.str "message"]) ∧
    finishSchema.get "name" = some (JVal.str "finish") ∧
    (finishSchema.get "parameters").bind (fun p => p.get "type") =
      some (JVal.str "object") ∧
    (((finishSchema.get "parameters").bind (fun p => p.get "properties")).bind
      (fun p => p.get "message")).bind (fun p => p.get "type") =
      some (JVal.str "string") ∧
    (finishSchema.get "parameters").bind (fun p => p.get "required") =
      some (JVal.arr [JVal.str "message"]) ∧
    (mkRouter agents tools providers).get_tool CALL_AGENT =
      .error (.tool CALL_AGENT "Tool not found") ∧
    (mkRouter agents tools providers).get_tool FINISH =
      .error (.tool FINISH "Tool not found") := by
  refine ⟨rfl, rfl, rfl, rfl, rfl, rfl, rfl, rfl, rfl, rfl, ?_, ?_⟩
  · have habs := dictOfList_absent Tool.name tools CALL_AGENT (fun t ht => (hs t ht).1)
    simp [Router.get_tool, mkRouter, habs]
  · have habs := dictOfList_absent Tool.name tools FINISH (fun t ht => (hs t ht).2)
    simp [Router.get_tool, mkRouter, habs]

/-- Witness for C4 at the empty registries. -/
theorem build_tool_schemas_sentinels_witness :
    (mkRouter [] [] []).get_tool "call_agent" =
      .error (.tool "call_agent" "Tool not found") :=
  (build_tool_schemas_sentinels [] [] [] "a" (by simp)).2.2.2.2.2.2.2.2.2.2.1

/-- C1: in the batch loop, a response with an empty tool-call list ends the
turn with output `content or ""`, and a response containing a finish call —
the leftmost one winning — ends it with output
`finish.arguments.get("message", "")`; in both cases exactly the one response
is consumed, so no further LLM call happens in that turn, and the Context is
left as it was. -/
theorem batch_loop_termination (fuel : Nat) (r : Router) (agent : Agent) (ctx : Context)
    (resp : LLMResponse) (rest : List LLMResponse)
    (hp : (dictGet r.providers agent.provider).isSome) :
    (resp.tool_calls = [] →
      loopWhile (fuel + 1) r agent ctx (resp :: rest) =
        some ([Ev.llm_call agent.name agent.model,
               Ev.llm_response agent.name false ((resp.content.map String.length).getD 0)],
          .ok (resp.content.getD "", ctx), rest)) ∧
    (∀ pre fc post, resp.tool_calls = pre ++ fc :: post → fc.name = FINISH →
      (∀ tc ∈ pre, tc.name ≠ FINISH) →
      loopWhile (fuel + 1) r agent ctx (resp :: rest) =
        some ([Ev.llm_call agent.name agent.model,
               Ev.llm_response agent.name true ((resp.content.map String.length).getD 0),
               Ev.finish_ev agent.name
                 (pyTruncate ((argGetOpt fc.arguments "message").getD ""))],
          .ok ((argGetOpt fc.arguments "message").getD "", ctx), rest)) := by
  obtain ⟨p, hp2⟩ := Option.isSome_iff_exists.mp hp
  constructor
  · intro h
    simp [loopWhile, hp2, h]
  · intro pre fc post htc hname hpre
    have hff : findFinish resp.tool_calls = some fc := by
      rw [htc]; exact findFinish_decomposed pre post fc hname hpre
    have hne : resp.tool_calls.isEmpty = false := by
      rw [htc]; exact isEmpty_decomposed pre post fc
    simp [loopWhile, hp2, hne, hff, argGet, argGetOpt]

/-- Witness for C1: a plain-text response ends the turn with its content. -/
theorem batch_loop_termination_witness :
    loopWhile 1 routerAB agentA { system_prompt := "s" } [{ content := some "hello" }] =
      some ([Ev.llm_call "a" "m", Ev.llm_response "a" false 5],
        .ok ("hello", { system_prompt := "s" }), []) :=
  (batch_loop_termination 0 routerAB agentA { system_prompt := "s" }
    { content := some "hello" } [] (by decide)).1 rfl

/-- C10: in the batch loop the finish check runs strictly before the
assistant append and the parallel fan-out: when the response contains a
finish call, the turn returns at once — the Context comes back unchanged (no
assistant and no tool message was appended), the script beyond this response
is untouched (no sub-agent ran), and the recorded events contain no
tool_exec and no agent_call. -/
theorem batch_finish_preempts_dispatch (fuel : Nat) (r : Router) (agent : Agent)
    (ctx : Context) (resp : LLMResponse) (rest : List LLMResponse) (fc : ToolCall)
    (hp : (dictGet r.providers agent.provider).isSome)
    (hf : findFinish resp.tool_calls = some fc) :
    loopWhile (fuel + 1) r agent ctx (resp :: rest) =
      some ([Ev.llm_call agent.name agent.model,
             Ev.llm_response agent.name true ((resp.content.map String.length).getD 0),
             Ev.finish_ev agent.name (pyTruncate (argGet fc.arguments "message"))],
        .ok (argGet fc.arguments "message", ctx), rest) ∧
    ([Ev.llm_call agent.name agent.model,
      Ev.llm_response agent.name true ((resp.content.map String.length).getD 0),
      Ev.finish_ev agent.name (pyTruncate (argGet fc.arguments "message"))].filter
        (fun e => match e with
          | Ev.tool_exec _ _ _ => true
          | Ev.agent_call _ _ _ => true
          | _ => false)) = [] := by
  obtain ⟨p, hp2⟩ := Option.isSome_iff_exists.mp hp
  have hne : resp.tool_calls.isEmpty = false := by
    cases h : resp.tool_calls with
    | nil => rw [h] at hf; simp [findFinish] at hf
    | cons hd tl => simp
  refine ⟨?_, by simp⟩
  simp [loopWhile, hp2, hne, hf]

/-- Witness for C10: a response carrying both a finish call and an ordinary
tool call returns before any dispatch. -/
theorem batch_finish_preempts_dispatch_witness :
    loopWhile 1 routerAB agentA { system_prompt := "s" }
      [{ tool_calls := [{ id := "f1", name := "finish", arguments := [("message", "done")] },
                        { id := "t1", name := "echo", arguments := [("text", "w")] }] }] =
      some ([Ev.llm_call "a" "m", Ev.llm_response "a" true 0, Ev.finish_ev "a" "done"],
        .ok ("done", { system_prompt := "s" }), []) :=
  (batch_finish_preempts_dispatch 0 routerAB agentA { system_prompt := "s" }
    { tool_calls := [{ id := "f1", name := "finish", arguments := [("message", "done")] },
                     { id := "t1", name := "echo", arguments := [("text", "w")] }] }
    [] { id := "f1", name := "finish", arguments := [("message", "done")] }
    (by decide) rfl).1

/-- C3 (amended): in the batch dispatch path a `call_agent` whose target is
not registered makes `_execute_tool_call` raise RoutingError, but
`asyncio.gather(..., return_exceptions=True)` captures it like any other
task exception: the loop converts every captured exception — RoutingError
and wrapped tool exceptions alike — into the tool-result string
`Error: <exc>` and continues with the next LLM turn; nothing propagates out
of the agent turn. -/
theorem batch_routing_error_captured :
    (∀ (fuel : Nat) (r : Router) (caller : String) (tc : ToolCall)
        (script : List LLMResponse),
      tc.name = CALL_AGENT →
      dictGet r.agents (argGet tc.arguments "agent_name") = none →
      dispatchOne fuel r caller tc script =
        some ([], .error (.routing ("Unknown agent: " ++ argGet tc.arguments "agent_name")),
          script)) ∧
    (∀ e : Exc, captureResult (.error e) = "Error: " ++ e.toStr) ∧
    (∀ (fuel : Nat) (r : Router) (caller : String) (tc : ToolCall)
        (script : List LLMResponse) (tool : Tool) (m : String),
      tc.name ≠ CALL_AGENT →
      dictGet r.tools tc.name = some tool →
      tool.run tc.arguments = .error m →
      dispatchOne fuel r caller tc script =
        some ([Ev.tool_exec caller tc.name tc.arguments], .error (.tool tc.name m), script)) ∧
    (∀ (fuel : Nat) (r : Router) (agent : Agent) (ctx : Context) (resp : LLMResponse)
        (rest rest1 rest2 : List LLMResponse) (devs evs : List Ev)
        (results : List (Except Exc String)) (res : Except Exc (String × Context)),
      (dictGet r.providers agent.provider).isSome →
      resp.tool_calls.isEmpty = false →
      findFinish resp.tool_calls = none →
      dispatchList fuel r agent.name resp.tool_calls rest = some (devs, results, rest1) →
      loopWhile fuel r agent
        (addToolResults (ctx.add_assistant_tool_calls resp.tool_calls resp.content)
          resp.tool_calls (results.map captureResult)) rest1 = some (evs, res, rest2) →
      loopWhile (fuel + 1) r agent ctx (resp :: rest) =
        some ([Ev.llm_call agent.name agent.model,
               Ev.llm_response agent.name true ((resp.content.map String.length).getD 0)] ++
            devs ++ evs, res, rest2)) := by
  refine ⟨?_, fun e => rfl, ?_, ?_⟩
  · intro fuel r caller tc script hn habs
    simp [dispatchOne, hn, Router.get_agent, habs]
  · intro fuel r caller tc script tool m hn htool hrun
    simp [dispatchOne, hn, Router.get_tool, htool, hrun]
  · intro fuel r agent ctx resp rest rest1 rest2 devs evs results res hp hne hff hdisp hloop
    obtain ⟨p, hp2⟩ := Option.isSome_iff_exists.mp hp
    simp [loopWhile, hp2, hne, hff, hdisp, hloop]

unseal loopWhile dispatchList dispatchOne in
/-- Counterexample to C3 as stated: a batch turn whose response calls the
unknown agent `ghost` does not fail — it completes, the RoutingError having
become the tool-result string `Error: Unknown agent: ghost`, and the next
response's finish ends the turn normally with output `done`. -/
theorem batch_routing_error_counterexample :
    batchOutput (runAgentLoop 3 routerAB agentA "go" [respGhost, respDone]) =
      some (.ok "done") ∧
    batchToolMessages (runAgentLoop 3 routerAB agentA "go" [respGhost, respDone]) =
      some [some "Error: Unknown agent: ghost"] :=
  ⟨rfl, rfl⟩

/-- Witness for C3 (amended) at the `ghost` tool call. -/
theorem batch_routing_error_captured_witness :
    dispatchOne 0 routerAB "a"
      { id := "tc1", name := "call_agent",
        arguments := [("agent_name", "ghost"), ("message", "hi")] } [] =
      some ([], .error (.routing "Unknown agent: ghost"), []) :=
  batch_routing_error_captured.1 0 routerAB "a"
    { id := "tc1", name := "call_agent",
      arguments := [("agent_name", "ghost"), ("message", "hi")] } [] rfl rfl

/-- The messages of a Context after the tool-result append loop: the original
messages followed by one tool message per (call, result) pair, in order. -/
theorem addToolResults_messages (tcs : List ToolCall) (results : List String)
    (ctx : Context) :
    (addToolResults ctx tcs results).messages =
      ctx.messages ++ (tcs.zip results).map toolMsgOf := by
  have main : ∀ (l : List (ToolCall × String)) (c : Context),
      ((l.foldl (fun c p => c.add_tool_result p.1.id p.1.name p.2) c).messages) =
        c.messages ++ l.map toolMsgOf := by
    intro l
    induction l with
    | nil => intro c; simp
    | cons hd tl ih =>
      intro c
      rw [List.foldl_cons, ih]
      simp [Context.add_tool_result, toolMsgOf]
  exact main (tcs.zip results) ctx

/-- Zipping against a long-enough left prefix ignores the appended tail. -/
theorem zip_append_left (tcs : List ToolCall) (r1 r2 : List ContextMessage)
    (h : tcs.length ≤ r1.length) : tcs.zip (r1 ++ r2) = tcs.zip r1 := by
  induction tcs generalizing r1 with
  | nil => simp
  | cons tc tl ih =>
    cases r1 with
    | nil => simp at h
    | cons m rest =>
      simp only [List.cons_append, List.zip_cons_cons, List.cons.injEq, true_and]
      exact ih rest (by simpa using h)

/-- blockMatches is stable under appending messages after the block. -/
theorem blockMatches_append (tcs : List ToolCall) (r1 r2 : List ContextMessage)
    (h : blockMatches tcs r1 = true) : blockMatches tcs (r1 ++ r2) = true := by
  simp only [blockMatches, Bool.and_eq_true, decide_eq_true_eq] at h ⊢
  obtain ⟨hlen, hall⟩ := h
  refine ⟨by simp; omega, ?_⟩
  rw [zip_append_left tcs r1 r2 hlen]
  exact hall

/-- The tool block built from zipped calls and results matches its calls. -/
theorem blockMatches_toolMsgs (tcs : List ToolCall) (results : List String)
    (h : results.length = tcs.length) :
    blockMatches tcs ((tcs.zip results).map toolMsgOf) = true := by
  induction tcs generalizing results with
  | nil => simp [blockMatches]
  | cons tc tl ih =>
    cases results with
    | nil => simp at h
    | cons r rs =>
      have hlen : rs.length = tl.length := by simpa using h
      have ihh := ih rs hlen
      simp only [blockMatches, Bool.and_eq_true, decide_eq_true_eq] at ihh ⊢
      obtain ⟨ihlen, ihall⟩ := ihh
      constructor
      · simp only [List.zip_cons_cons, List.map_cons, List.length_cons]
        omega
      · simp only [List.zip_cons_cons, List.map_cons, List.zip_cons_cons, List.all_cons,
          Bool.and_eq_true]
        refine ⟨by simp [toolMsgOf], ?_⟩
        simpa using ihall

/-- Appending two id-matching message lists preserves the invariant. -/
theorem wfB_append : ∀ (n : Nat) (l1 : List ContextMessage), l1.length ≤ n →
    wfB l1 = true → ∀ l2, wfB l2 = true → wfB (l1 ++ l2) = true := by
  intro n
  induction n with
  | zero =>
    intro l1 hlen h1 l2 h2
    have : l1 = [] := List.length_eq_zero.mp (Nat.le_zero.mp hlen)
    subst this
    simpa using h2
  | succ n ih =>
    intro l1 hlen h1 l2 h2
    cases l1 with
    | nil => simpa using h2
    | cons m rest =>
      by_cases hrole : m.role = "assistant"
      · cases htc : m.tool_calls with
        | none =>
          rw [wfB, if_pos hrole, htc] at h1
          rw [List.cons_append, wfB, if_pos hrole, htc]
          exact ih rest (by simpa using hlen) h1 l2 h2
        | some tcs =>
          cases tcs with
          | nil =>
            rw [wfB, if_pos hrole, htc] at h1
            rw [List.cons_append, wfB, if_pos hrole, htc]
            exact ih rest (by simpa using hlen) h1 l2 h2
          | cons tc tl =>
            rw [wfB, if_pos hrole, htc, Bool.and_eq_true] at h1
            obtain ⟨hbm, hrest⟩ := h1
            have hlen2 : (tc :: tl).length ≤ rest.length := by
              have hbm2 := hbm
              simp only [blockMatches, Bool.and_eq_true, decide_eq_true_eq] at hbm2
              exact hbm2.1
            rw [List.cons_append, wfB, if_pos hrole, htc, Bool.and_eq_true]
            refine ⟨blockMatches_append _ _ _ hbm, ?_⟩
            rw [List.drop_append_of_le_length hlen2]
            refine ih (rest.drop (tc :: tl).length) ?_ hrest l2 h2
            have hdl : (rest.drop (tc :: tl).length).length ≤ rest.length := by
              simp
            have hr : rest.length ≤ n := by simpa using hlen
            omega
      · rw [wfB, if_neg hrole] at h1
        rw [List.cons_append, wfB, if_neg hrole]
        exact ih rest (by simpa using hlen) h1 l2 h2

/-- The assistant message followed by its zipped tool block satisfies the
invariant on its own. -/
theorem wfB_block (tcs : List ToolCall) (results : List String)
    (content : Option String) (h : results.length = tcs.length) :
    wfB (({ role := "assistant", content := content,
            tool_calls := some tcs } : ContextMessage) ::
          (tcs.zip results).map toolMsgOf) = true := by
  cases tcs with
  | nil => simp [wfB]
  | cons tc tl =>
    rw [wfB, if_pos rfl, Bool.and_eq_true]
    refine ⟨blockMatches_toolMsgs _ _ h, ?_⟩
    have hlen : (((tc :: tl).zip results).map toolMsgOf).length = (tc :: tl).length := by
      rw [List.length_map, List.length_zip]
      omega
    rw [List.drop_eq_nil_iff.mpr (by omega), wfB]

/-- dispatchList returns one outcome per tool call. -/
theorem dispatchList_length (fuel : Nat) (r : Router) (caller : String) :
    ∀ (tcs : List ToolCall) (script : List LLMResponse) (devs : List Ev)
      (results : List (Except Exc String)) (rest : List LLMResponse),
    dispatchList fuel r caller tcs script = some (devs, results, rest) →
    results.length = tcs.length := by
  intro tcs
  induction tcs with
  | nil =>
    intro script devs results rest h
    rw [dispatchList] at h
    simp only [Option.some.injEq, Prod.mk.injEq] at h
    obtain ⟨-, h2, -⟩ := h
    simp [← h2]
  | cons tc tl ih =>
    intro script devs results rest h
    rw [dispatchList] at h
    split at h
    · simp at h
    · split at h
      · simp at h
      · rename_i evs2 results2 script2 h2
        simp only [Option.some.injEq, Prod.mk.injEq] at h
        obtain ⟨-, hres, -⟩ := h
        rw [← hres]
        simp [ih _ _ _ _ h2]

unseal loopWhile dispatchList dispatchOne in
theorem loopWhile_zero (r : Router) (a : Agent) (c : Context) (s : List LLMResponse) :
    loopWhile 0 r a c s = none := rfl

/-- C2: in the batch loop every assistant ContextMessage carrying tool calls
`[c1…cn]` is immediately followed by exactly n tool ContextMessages whose
`tool_call_id`s are `c1.id … cn.id` in the order of the original tool-call
list (the gather collects outcomes in request order, which the model bakes
in): the id-matching invariant `wfB` is preserved by every terminating loop
run, and holds for the final Context of every full agent turn. -/
theorem batch_tool_results_ordered :
    (∀ (fuel : Nat) (r : Router) (agent : Agent) (ctx : Context)
        (script : List LLMResponse) (evs : List Ev) (out : String) (ctxF : Context)
        (rest : List LLMResponse),
      wfB ctx.messages = true →
      loopWhile fuel r agent ctx script = some (evs, .ok (out, ctxF), rest) →
      wfB ctxF.messages = true) ∧
    (∀ (fuel : Nat) (r : Router) (agent : Agent) (msg : String)
        (script : List LLMResponse) (evs : List Ev) (out : String) (ctxF : Context)
        (rest : List LLMResponse),
      runAgentLoop fuel r agent msg script = some (evs, .ok (out, ctxF), rest) →
      wfB ctxF.messages = true) := by
  have main : ∀ (fuel : Nat) (r : Router) (agent : Agent) (ctx : Context)
      (script : List LLMResponse) (evs : List Ev) (out : String) (ctxF : Context)
      (rest : List LLMResponse),
      wfB ctx.messages = true →
      loopWhile fuel r agent ctx script = some (evs, .ok (out, ctxF), rest) →
      wfB ctxF.messages = true := by
    intro fuel
    induction fuel with
    | zero =>
      intro r agent ctx script evs out ctxF rest hwf h
      rw [loopWhile_zero] at h
      exact absurd h (by simp)
    | succ fuel ih =>
      intro r agent ctx script evs out ctxF rest hwf h
      cases script with
      | nil =>
        rw [loopWhile.eq_2] at h
        split at h <;> simp at h
      | cons resp rest0 =>
        rw [loopWhile.eq_3] at h
        split at h
        · simp at h
        · split at h
          · simp only [Option.some.injEq, Prod.mk.injEq, Except.ok.injEq] at h
            obtain ⟨-, ⟨-, hctx⟩, -⟩ := h
            rw [← hctx]
            exact hwf
          · split at h
            · simp only [Option.some.injEq, Prod.mk.injEq, Except.ok.injEq] at h
              obtain ⟨-, ⟨-, hctx⟩, -⟩ := h
              rw [← hctx]
              exact hwf
            · split at h
              · simp at h
              · rename_i devs results rest1 hdisp
                dsimp only [] at h
                split at h
                · simp at h
                · rename_i evs2 res2 rest2 hloop
                  simp only [Option.some.injEq, Prod.mk.injEq] at h
                  obtain ⟨-, hres, -⟩ := h
                  rw [hres] at hloop
                  have hres_len : (results.map captureResult).length =
                      resp.tool_calls.length := by
                    rw [List.length_map]
                    exact dispatchList_length fuel r agent.name resp.tool_calls rest0
                      devs results rest1 hdisp
                  refine ih r agent _ rest1 evs2 out ctxF rest2 ?_ hloop
                  rw [addToolResults_messages]
                  have hassist : (ctx.add_assistant_tool_calls resp.tool_calls
                      resp.content).messages =
                      ctx.messages ++
                        [{ role := "assistant", content := resp.content,
                           tool_calls := some resp.tool_calls }] := rfl
                  rw [hassist, List.append_assoc, List.singleton_append]
                  exact wfB_append ctx.messages.length ctx.messages le_rfl hwf _
                    (wfB_block resp.tool_calls (results.map captureResult)
                      resp.content hres_len)
  refine ⟨main, ?_⟩
  intro fuel r agent msg script evs out ctxF rest h
  refine main fuel r agent _ script evs out ctxF rest ?_ h
  simp [initialContext, Context.add_user, wfB]

unseal loopWhile dispatchList dispatchOne in
/-- Witness for C2: a finish-only turn ends with the initial Context, which
satisfies the invariant. -/
theorem batch_tool_results_ordered_witness :
    wfB (initialContext routerAB agentA "go").messages = true :=
  batch_tool_results_ordered.2 2 routerAB agentA "go" [respDone]
    [Ev.llm_call "a" "m", Ev.llm_response "a" true 0, Ev.finish_ev "a" "done"]
    "done" (initialContext routerAB agentA "go") [] (by rfl)

/-- The code-side removal differs from the consume-to-end-of-string removal
at most by a trailing newline (the `$` anchor can stop before a final
newline). -/
theorem stripAux_rel : ∀ (n : Nat) (cs : List Char), cs.length ≤ n →
    stripAuxCode cs = stripAuxSpec cs ∨
    stripAuxCode cs = stripAuxSpec cs ++ ['\n'] := by
  intro n
  induction n with
  | zero =>
    intro cs hle
    have : cs = [] := List.length_eq_zero.mp (Nat.le_zero.mp hle)
    subst this
    left
    rw [stripAuxCode.eq_1, stripAuxSpec.eq_1]
  | succ n ihn =>
    intro cs hle
    cases cs with
    | nil =>
      left
      rw [stripAuxCode.eq_1, stripAuxSpec.eq_1]
    | cons c rest =>
      rw [stripAuxCode.eq_2, stripAuxSpec.eq_2]
      cases hfind : List.find? (fun t => (tagOpen t).isPrefixOf (c :: rest))
          REASONING_TAGS with
      | none =>
        simp only [hfind]
        rcases ihn rest (by simpa using hle) with h | h
        · left; rw [h]
        · right; rw [h, List.cons_append]
      | some t =>
        simp only [hfind]
        cases hclose : findCloseIdx (tagClose t) (List.drop (t.length + 2) (c :: rest)) with
        | some i =>
          simp only [hclose]
          refine ihn _ ?_
          have hle2 : rest.length ≤ n := by simpa using hle
          simp only [List.length_drop, List.length_cons]
          omega
        | none =>
          simp only [hclose]
          by_cases hnl : (List.drop (t.length + 2) (c :: rest)).getLast? = some '\n'
          · right
            rw [if_pos hnl]
            rfl
          · left
            rw [if_neg hnl]

/-- Trimming absorbs a trailing newline. -/
theorem trimChars_newline (l : List Char) : trimChars (l ++ ['\n']) = trimChars l := by
  have hsp : isPySpace '\n' = true := rfl
  simp [trimChars, List.reverse_append, List.dropWhile_cons, hsp]

/-- C5: `LLMResponse.content_without_reasoning` behaves exactly as specified:
the removal of every `<think|thinking|reason|reasoning>` block (matching
closing tag, or end of string for an unclosed tag) followed by whitespace
trimming — the code regex and the spec-described removal agree on every
string — and the property is `None` exactly when the content is `None` or
the stripped, trimmed text is empty, otherwise that text; the stored
`content` field is a plain data field the read-side property never writes. -/
theorem content_without_reasoning_spec :
    (∀ s : String, contentOutsideReasoning s = contentOutsideReasoningSpec s) ∧
    (∀ tcs : List ToolCall,
      (LLMResponse.mk none tcs).content_without_reasoning = none) ∧
    (∀ (s : String) (tcs : List ToolCall),
      (LLMResponse.mk (some s) tcs).content_without_reasoning =
        (if contentOutsideReasoningSpec s = "" then none
         else some (contentOutsideReasoningSpec s))) := by
  have heq : ∀ s : String, contentOutsideReasoning s = contentOutsideReasoningSpec s := by
    intro s
    unfold contentOutsideReasoning contentOutsideReasoningSpec
    rcases stripAux_rel s.data.length s.data le_rfl with h | h
    · rw [h]
    · rw [h, trimChars_newline]
  refine ⟨heq, fun tcs => rfl, ?_⟩
  intro s tcs
  show (let result := contentOutsideReasoning s;
    if result = "" then none else some result) = _
  rw [heq s]

/-- Terminator counting distributes over append. -/
theorem countTerminators_append (l1 l2 : List SEvent) :
    countTerminators (l1 ++ l2) = countTerminators l1 + countTerminators l2 := by
  simp [countTerminators, List.filter_append]

/-- agent_call counting distributes over append. -/
theorem countAgentCalls_append (l1 l2 : List SEvent) :
    countAgentCalls (l1 ++ l2) = countAgentCalls l1 + countAgentCalls l2 := by
  simp [countAgentCalls, List.filter_append]

/-- Token events are neither terminators nor agent calls. -/
theorem tokenEvents_counts (a : String) (entry : List StreamChunk) :
    countTerminators (tokenEvents a entry) = 0 ∧
    countAgentCalls (tokenEvents a entry) = 0 := by
  induction entry with
  | nil => simp [tokenEvents, countTerminators, countAgentCalls]
  | cons c cs ih =>
    cases c with
    | text s =>
      simpa [tokenEvents, countTerminators, countAgentCalls, SEvent.type] using ih
    | response r =>
      simpa [tokenEvents] using ih

/-- No terminator among token events. -/
theorem tokenEvents_countTerm (a : String) (entry : List StreamChunk) :
    countTerminators (tokenEvents a entry) = 0 :=
  (tokenEvents_counts a entry).1

/-- No agent_call among token events. -/
theorem tokenEvents_countAgent (a : String) (entry : List StreamChunk) :
    countAgentCalls (tokenEvents a entry) = 0 :=
  (tokenEvents_counts a entry).2

unseal streamWhile streamDispatch in
theorem streamWhile_zero (r : Router) (a : Agent) (c : Context)
    (s : List (List StreamChunk)) : streamWhile 0 r a c s = none := rfl

/-- Dispatch-level balance for the streaming loop: a serial dispatch pass
that returns normally forwards exactly one terminator per agent_call it
emitted (each forwarded sub-run contributes its own single net
terminator). -/
theorem streamDispatch_balance (fuel : Nat)
    (hP : ∀ (r : Router) (agent : Agent) (ctx : Context)
      (script : List (List StreamChunk)) (evs : List SEvent)
      (rest : List (List StreamChunk)),
      streamWhile fuel r agent ctx script = some (evs, .ok (), rest) →
      countTerminators evs = 1 + countAgentCalls evs) :
    ∀ (tcs : List ToolCall) (r : Router) (agent : Agent) (ctx : Context)
      (script : List (List StreamChunk)) (devs : List SEvent) (ctx2 : Context)
      (rest : List (List StreamChunk)),
    streamDispatch fuel r agent tcs ctx script = some (devs, .ok ctx2, rest) →
    countTerminators devs = countAgentCalls devs := by
  intro tcs
  induction tcs with
  | nil =>
    intro r agent ctx script devs ctx2 rest h
    rw [streamDispatch] at h
    simp only [Option.some.injEq, Prod.mk.injEq] at h
    obtain ⟨hd, -, -⟩ := h
    rw [← hd]
    simp [countTerminators, countAgentCalls]
  | cons tc tl ih =>
    intro r agent ctx script devs ctx2 rest h
    rw [streamDispatch] at h
    by_cases hname : tc.name = CALL_AGENT
    · rw [if_pos hname] at h
      try dsimp only [] at h
      cases hga : r.get_agent (argGet tc.arguments "agent_name") with
      | error e => rw [hga] at h; simp at h
      | ok target =>
        rw [hga] at h
        try dsimp only [] at h
        cases hsub : streamWhile fuel r target
            (initialContext r target (argGet tc.arguments "message")) script with
        | none => rw [hsub] at h; simp at h
        | some sub3 =>
          obtain ⟨subEvs, subRes, rest1⟩ := sub3
          rw [hsub] at h
          try dsimp only [] at h
          cases subRes with
          | error e => simp at h
          | ok u =>
            cases u
            try dsimp only [] at h
            cases hdisp : streamDispatch fuel r agent tl
                (ctx.add_tool_result tc.id tc.name (subResultOf subEvs)) rest1 with
            | none => rw [hdisp] at h; simp at h
            | some d3 =>
              obtain ⟨devs2, res, rest2⟩ := d3
              rw [hdisp] at h
              try dsimp only [] at h
              simp only [Option.some.injEq, Prod.mk.injEq] at h
              obtain ⟨hd, hres, -⟩ := h
              rw [hres] at hdisp
              have hsubc := hP _ _ _ _ _ _ hsub
              have hihc := ih _ _ _ _ _ _ _ hdisp
              rw [← hd]
              simp only [List.cons_append, List.append_assoc] at *
              simp [countTerminators, countAgentCalls, List.filter_cons,
                List.filter_append, SEvent.type] at hsubc hihc ⊢
              omega
    · rw [if_neg hname] at h
      cases htool : r.get_tool tc.name with
      | error e => rw [htool] at h; simp at h
      | ok tool =>
        rw [htool] at h
        try dsimp only [] at h
        cases hrun : tool.run tc.arguments with
        | ok s =>
          rw [hrun] at h
          try dsimp only [] at h
          cases hdisp : streamDispatch fuel r agent tl
              (ctx.add_tool_result tc.id tc.name s) script with
          | none => rw [hdisp] at h; simp at h
          | some d3 =>
            obtain ⟨devs2, res, rest2⟩ := d3
            rw [hdisp] at h
            try dsimp only [] at h
            simp only [Option.some.injEq, Prod.mk.injEq] at h
            obtain ⟨hd, hres, -⟩ := h
            rw [hres] at hdisp
            have hihc := ih _ _ _ _ _ _ _ hdisp
            rw [← hd]
            simp [countTerminators, countAgentCalls, List.filter_cons,
              SEvent.type] at hihc ⊢
            omega
        | error m =>
          rw [hrun] at h
          try dsimp only [] at h
          cases hdisp : streamDispatch fuel r agent tl
              (ctx.add_tool_result tc.id tc.name ("Error: " ++ m)) script with
          | none => rw [hdisp] at h; simp at h
          | some d3 =>
            obtain ⟨devs2, res, rest2⟩ := d3
            rw [hdisp] at h
            try dsimp only [] at h
            simp only [Option.some.injEq, Prod.mk.injEq] at h
            obtain ⟨hd, hres, -⟩ := h
            rw [hres] at hdisp
            have hihc := ih _ _ _ _ _ _ _ hdisp
            rw [← hd]
            simp [countTerminators, countAgentCalls, List.filter_cons,
              SEvent.type] at hihc ⊢
            omega

/-- C6 (amended): a streaming agent loop that terminates normally (without a
propagated exception) always ends on a terminator: its last emitted
StreamEvent has type `finish` or `error` and nothing follows it, and the
number of finish-or-error events equals one plus the number of `agent_call`
events — exactly one terminator per (sub-)agent loop.  The original
exactly-one-overall claim fails because the loop forwards every sub-agent
event, the sub-agent's own `finish` included. -/
theorem stream_terminator_last :
    ∀ (fuel : Nat) (r : Router) (agent : Agent) (ctx : Context)
      (script : List (List StreamChunk)) (evs : List SEvent)
      (rest : List (List StreamChunk)),
    streamWhile fuel r agent ctx script = some (evs, .ok (), rest) →
    countTerminators evs = 1 + countAgentCalls evs ∧
    (evs.getLast?.map SEvent.type = some "finish" ∨
     evs.getLast?.map SEvent.type = some "error") := by
  intro fuel
  induction fuel with
  | zero =>
    intro r agent ctx script evs rest h
    rw [streamWhile_zero] at h
    exact absurd h (by simp)
  | succ fuel ih =>
    intro r agent ctx script evs rest h
    rw [streamWhile] at h
    try dsimp only [] at h
    cases hlast : lastResponse (script.headD []) with
    | none =>
      rw [hlast] at h
      try dsimp only [] at h
      simp only [Option.some.injEq, Prod.mk.injEq] at h
      obtain ⟨hd, -, -⟩ := h
      rw [← hd]
      constructor
      · rw [countTerminators_append, countAgentCalls_append,
          tokenEvents_countTerm, tokenEvents_countAgent]
        simp [countTerminators, countAgentCalls, SEvent.type]
      · right
        simp [List.getLast?_append, SEvent.type, Option.or]
    | some resp =>
      rw [hlast] at h
      try dsimp only [] at h
      cases hemp : resp.tool_calls.isEmpty with
      | true =>
        rw [if_pos hemp] at h
        simp only [Option.some.injEq, Prod.mk.injEq] at h
        obtain ⟨hd, -, -⟩ := h
        rw [← hd]
        constructor
        · rw [countTerminators_append, countAgentCalls_append,
            tokenEvents_countTerm, tokenEvents_countAgent]
          simp [countTerminators, countAgentCalls, SEvent.type]
        · left
          simp [List.getLast?_append, SEvent.type, Option.or]
      | false =>
        rw [if_neg (by simp [hemp])] at h
        cases hff : findFinish resp.tool_calls with
        | some fc =>
          rw [hff] at h
          try dsimp only [] at h
          simp only [Option.some.injEq, Prod.mk.injEq] at h
          obtain ⟨hd, -, -⟩ := h
          rw [← hd]
          constructor
          · rw [countTerminators_append, countAgentCalls_append,
              tokenEvents_countTerm, tokenEvents_countAgent]
            simp [countTerminators, countAgentCalls, SEvent.type]
          · left
            simp [List.getLast?_append, SEvent.type, Option.or]
        | none =>
          rw [hff] at h
          try dsimp only [] at h
          cases hdisp : streamDispatch fuel r agent resp.tool_calls
              (ctx.add_assistant_tool_calls resp.tool_calls resp.content)
              script.tail with
          | none => rw [hdisp] at h; simp at h
          | some d3 =>
            obtain ⟨devs, dres, rest1⟩ := d3
            rw [hdisp] at h
            try dsimp only [] at h
            cases dres with
            | error e => simp at h
            | ok ctx2 =>
              try dsimp only [] at h
              cases hloop : streamWhile fuel r agent ctx2 rest1 with
              | none => rw [hloop] at h; simp at h
              | some l3 =>
                obtain ⟨evs2, res2, rest2⟩ := l3
                rw [hloop] at h
                try dsimp only [] at h
                simp only [Option.some.injEq, Prod.mk.injEq] at h
                obtain ⟨hd, hres, -⟩ := h
                rw [hres] at hloop
                have hev2 := ih r agent ctx2 rest1 evs2 rest2 hloop
                have hbal := streamDispatch_balance fuel
                  (fun r a c s e rr hh => (ih r a c s e rr hh).1)
                  resp.tool_calls r agent _ script.tail devs ctx2 rest1 hdisp
                rw [← hd]
                constructor
                · simp only [countTerminators_append, countAgentCalls_append,
                    tokenEvents_countTerm, tokenEvents_countAgent]
                  omega
                · rcases hev2.2 with h2 | h2
                  · left
                    obtain ⟨e2, he2, htype2⟩ := Option.map_eq_some'.mp h2
                    have hgl : ((tokenEvents agent.name (script.headD []) ++ devs ++
                        evs2).getLast?) = some e2 := by
                      rw [List.getLast?_append, he2]
                      simp [Option.or]
                    rw [hgl]
                    simp [htype2]
                  · right
                    obtain ⟨e2, he2, htype2⟩ := Option.map_eq_some'.mp h2
                    have hgl : ((tokenEvents agent.name (script.headD []) ++ devs ++
                        evs2).getLast?) = some e2 := by
                      rw [List.getLast?_append, he2]
                      simp [Option.or]
                    rw [hgl]
                    simp [htype2]

unseal streamWhile streamDispatch in
/-- Counterexample to C6 as stated: the nested streaming scenario — the
parent delegates to `b`, which finishes with `x`, then the parent finishes
with `y` — emits the event sequence agent_call, finish, agent_return,
finish: two finish events, with further events after the first one. -/
theorem stream_single_terminator_counterexample :
    streamTypes (streamAgentLoop 4 routerAB agentA "go" scriptNested) =
      some ["agent_call", "finish", "agent_return", "finish"] ∧
    streamTerminatorCount (streamAgentLoop 4 routerAB agentA "go" scriptNested) =
      some 2 :=
  ⟨rfl, rfl⟩

unseal streamWhile streamDispatch in
/-- Witness for C6 (amended) at a one-turn streaming run. -/
theorem stream_terminator_last_witness :
    countTerminators [⟨"a", SEData.finish "y"⟩] =
      1 + countAgentCalls [⟨"a", SEData.finish "y"⟩] ∧
    (([(⟨"a", SEData.finish "y"⟩ : SEvent)].getLast?.map SEvent.type = some "finish") ∨
     ([(⟨"a", SEData.finish "y"⟩ : SEvent)].getLast?.map SEvent.type = some "error")) :=
  stream_terminator_last 1 routerAB agentA { system_prompt := "s" }
    [[StreamChunk.response respFinY]] [⟨"a", SEData.finish "y"⟩] [] (by rfl)

/-- C7 (amended): only the Anthropic adapter raises ProviderError on an empty
response — no accumulated text and no tool blocks.  The OpenAI and Google
adapters raise only when the vendor returns no choices (respectively no
candidates): a present choice or candidate that yields neither content nor
tool calls is returned as `LLMResponse(content=None, tool_calls=[])` without
error. -/
theorem empty_response_providers :
    (∀ (parse : String → Option (List (String × String))) (pname : String)
        (events : List AEvent),
      (anthropicAccumulate events).1 = "" →
      (anthropicAccumulate events).2 = [] →
      anthropicNormalize parse pname events =
        .error (.provider pname "Empty response: no content blocks returned")) ∧
    (∀ (parse : String → Option (List (String × String))) (pname : String),
      openaiNormalize parse pname { choices := [] } =
        .error (.provider pname "Empty response: no choices returned")) ∧
    (∀ (parse : String → Option (List (String × String))) (pname : String)
        (rest : List OAChoice),
      openaiNormalize parse pname { choices := { message := {} } :: rest } =
        .ok { content := none, tool_calls := [] }) ∧
    (∀ (freshId : Nat → String) (pname : String),
      googleNormalize freshId pname { candidates := [] } =
        .error (.provider pname "Empty response: no candidates returned")) ∧
    (∀ (freshId : Nat → String) (pname : String) (rest : List GCandidate),
      googleNormalize freshId pname { candidates := { parts := [] } :: rest } =
        .ok { content := none, tool_calls := [] }) := by
  refine ⟨?_, fun parse pname => rfl, fun parse pname rest => rfl,
    fun freshId pname => rfl, fun freshId pname rest => rfl⟩
  intro parse pname events h1 h2
  simp [anthropicNormalize, h1, h2]

/-- Counterexample to C7 as stated: the OpenAI adapter returns
`LLMResponse(content=None, tool_calls=[])` for a response whose single
choice yields neither content nor tool calls, and the Google adapter does
the same for a single candidate with no parts — neither raises
ProviderError. -/
theorem empty_response_counterexample :
    openaiNormalize (fun _ => none) "openai"
      { choices := [{ message := { content := none, tool_calls := [] } }] } =
      .ok { content := none, tool_calls := [] } ∧
    googleNormalize (fun _ => "gid") "google" { candidates := [{ parts := [] }] } =
      .ok { content := none, tool_calls := [] } :=
  ⟨rfl, rfl⟩

/-- Witness for C7 (amended) at the empty Anthropic event stream. -/
theorem empty_response_providers_witness :
    anthropicNormalize (fun _ => none) "anthropic" [] =
      .error (.provider "anthropic" "Empty response: no content blocks returned") :=
  empty_response_providers.1 (fun _ => none) "anthropic" [] rfl rfl

end Agentouto
